import Mathlib

/-!
Verification of the TableTop Session Allocation & Lifecycle Engine.

The definitions below are a shallow embedding of the engine code:
`src/models.py` (VenueConfig, UserProfile, SessionLobby, SessionParticipant,
CreditTransaction) and the session routes of `src/app.py`
(create/join/leave/start/complete/cancel).  Database rows are association
lists keyed by integer primary keys; each HTTP route becomes a function
from an `EngineState` to `Except Err EngineState` (an error models the
route aborting with a flashed error message and the transaction not
committing).  Timestamps are abstract `Nat` clock values passed in by the
caller.
-/

namespace TableTop

/-- Embedding of `SessionStatus` enum of `src/models.py`. -/
inductive SessionStatus where
  | RECRUITING
  | ACTIVE
  | COMPLETED
  | CANCELLED
deriving DecidableEq, Repr

/-- Embedding of `UserProfile` row (`src/models.py`): the mutable engine-relevant fields.
Identity fields (username, email, ...) are carried by the key in the state. -/
structure UserProfile where
  credit_balance : Int
  reliability_streak : Int
  sessions_completed : Int
  sessions_cancelled : Int
deriving DecidableEq, Repr

/-- Embedding of `SessionLobby` row (`src/models.py`): engine-relevant fields. -/
structure SessionLobby where
  game_id : Nat
  status : SessionStatus
  slots_total : Nat
  slots_filled : Nat
  host_id : Nat
  started_at : Option Nat
  completed_at : Option Nat
deriving DecidableEq, Repr

/-- Embedding of `SessionParticipant` junction row (`src/models.py`). -/
structure SessionParticipant where
  session_id : Nat
  user_id : Nat
deriving DecidableEq, Repr

/-- Embedding of `CreditTransaction` ledger row (`src/models.py`). -/
structure CreditTransaction where
  user_id : Nat
  amount : Int
  transaction_type : String
deriving DecidableEq, Repr

/-- The persistent store the engine operates on: the venue singleton's
`max_capacity`, the `games`, `users`, `sessions`, `session_participants`
and `credit_transactions` tables, and the autoincrement counter for
session primary keys. -/
structure EngineState where
  max_capacity : Nat
  games : List Nat
  users : List (Nat × UserProfile)
  sessions : List (Nat × SessionLobby)
  participants : List SessionParticipant
  ledger : List CreditTransaction
  next_session_id : Nat
deriving DecidableEq, Repr

/-- Error taxonomy of spec §7 (the code raises `ValueError`s / flashes
messages; each failure site maps to one kind). -/
inductive Err where
  | NotFound
  | Unauthorized
  | InvalidTransition
  | SessionFull
  | DuplicateParticipant
  | Ineligible
  | VenueAtCapacity
  | InsufficientPlayers
  | InvalidParameters
deriving DecidableEq, Repr

/-- Primary-key lookup in a table (`Model.query.get`). -/
def findVal {α : Type} : List (Nat × α) → Nat → Option α
  | [], _ => none
  | p :: ps, k => if p.1 = k then some p.2 else findVal ps k

/-- Primary-key update of a row in a table (ORM attribute assignment on a
fetched row). -/
def setVal {α : Type} (l : List (Nat × α)) (k : Nat) (v : α) : List (Nat × α) :=
  l.map (fun p => if p.1 = k then (k, v) else p)

/-- Embedding of `session.participants` relationship: user ids of the membership
records of session `sid`, in table order. -/
def roster (st : EngineState) (sid : Nat) : List Nat :=
  (st.participants.filter (fun p => p.session_id = sid)).map (fun p => p.user_id)

/-- Embedding of `VenueConfig.get_current_occupancy`: sum of `slots_filled` over all
ACTIVE sessions. -/
def occupancy (st : EngineState) : Nat :=
  ((st.sessions.filter (fun p => p.2.status = SessionStatus.ACTIVE)).map
    (fun p => p.2.slots_filled)).sum

/-- Embedding of `VenueConfig.can_accommodate`. -/
def canAccommodate (st : EngineState) (n : Nat) : Bool :=
  decide (occupancy st + n ≤ st.max_capacity)

/-- Embedding of `VenueConfig.available_capacity` (the `max(0, ...)` is Nat subtraction). -/
def availableCapacity (st : EngineState) : Nat :=
  st.max_capacity - occupancy st

/-- Embedding of `UserProfile.can_join_session`: the eligibility gate. -/
def canJoinSession (u : UserProfile) : Bool :=
  decide (u.credit_balance > -50)

/-- Embedding of `SessionLobby.is_full`. -/
def isFull (s : SessionLobby) : Bool :=
  decide (s.slots_total ≤ s.slots_filled)

/-- Embedding of `SessionLobby.can_start`. -/
def canStart (s : SessionLobby) : Bool :=
  decide (2 ≤ s.slots_filled)

/-- Embedding of `SessionLobby.slots_remaining`. -/
def slotsRemaining (s : SessionLobby) : Nat :=
  s.slots_total - s.slots_filled

/-- Embedding of `SessionLobby.add_participant` (`src/models.py` lines 180-203), with
`NotFound` standing for the route-level `get_or_404` / `user is None`
checks.  Check order follows the source: full, duplicate, eligibility,
then the venue check which runs only for ACTIVE sessions. -/
def addParticipant (st : EngineState) (sid uid : Nat) : Except Err EngineState :=
  match findVal st.sessions sid, findVal st.users uid with
  | some s, some u =>
    if isFull s then .error .SessionFull
    else if uid ∈ roster st sid then .error .DuplicateParticipant
    else if canJoinSession u = false then .error .Ineligible
    else if s.status = SessionStatus.ACTIVE ∧ canAccommodate st 1 = false then
      .error .VenueAtCapacity
    else .ok { st with
      participants := st.participants ++ [⟨sid, uid⟩],
      sessions := setVal st.sessions sid { s with slots_filled := s.slots_filled + 1 } }
  | _, _ => .error .NotFound

/-- Deletion of the first matching membership record
(`SessionParticipant.query.filter_by(...).first()` then delete). -/
def eraseParticipant : List SessionParticipant → Nat → Nat → List SessionParticipant
  | [], _, _ => []
  | p :: ps, sid, uid =>
    if p.session_id = sid ∧ p.user_id = uid then ps
    else p :: eraseParticipant ps sid uid

/-- Embedding of `SessionLobby.remove_participant` (`src/models.py` lines 205-219):
no-op returning `false` when the user is not a member; otherwise deletes
the record and sets `slots_filled = max(1, slots_filled - 1)`. -/
def removeParticipant (st : EngineState) (sid uid : Nat) : Bool × EngineState :=
  match findVal st.sessions sid with
  | none => (false, st)
  | some s =>
    if uid ∈ roster st sid then
      (true, { st with
        participants := eraseParticipant st.participants sid uid,
        sessions := setVal st.sessions sid
          { s with slots_filled := max 1 (s.slots_filled - 1) } })
    else (false, st)

/-- Embedding of `create_session` POST route (`src/app.py` lines 447-520): invalid game,
then slots range, then the venue capacity check, then insert the session
and the host's membership record. -/
def createSession (st : EngineState) (host_id game_id slots_total : Nat) :
    Except Err EngineState :=
  match findVal st.users host_id with
  | none => .error .NotFound
  | some _ =>
    if game_id ∈ st.games then
      if slots_total < 2 ∨ 10 < slots_total then .error .InvalidParameters
      else if canAccommodate st slots_total = false then .error .VenueAtCapacity
      else .ok { st with
        sessions := st.sessions ++ [(st.next_session_id,
          { game_id := game_id
            status := SessionStatus.RECRUITING
            slots_total := slots_total
            slots_filled := 1
            host_id := host_id
            started_at := none
            completed_at := none })],
        participants := st.participants ++ [⟨st.next_session_id, host_id⟩],
        next_session_id := st.next_session_id + 1 }
    else .error .InvalidParameters

/-- Embedding of `join_session` route (`src/app.py` lines 523-553): status must be
RECRUITING, then the route-level full/duplicate checks, then
`add_participant`. -/
def joinSession (st : EngineState) (sid uid : Nat) : Except Err EngineState :=
  match findVal st.sessions sid, findVal st.users uid with
  | some s, some _ =>
    if s.status ≠ SessionStatus.RECRUITING then .error .InvalidTransition
    else if isFull s then .error .SessionFull
    else if uid ∈ roster st sid then .error .DuplicateParticipant
    else addParticipant st sid uid
  | _, _ => .error .NotFound

/-- Embedding of `leave_session` route (`src/app.py` lines 556-575): only a host
leaving an ACTIVE session is refused; otherwise `remove_participant`
runs (possibly as a no-op) and the transaction commits. -/
def leaveSession (st : EngineState) (sid uid : Nat) : Except Err EngineState :=
  match findVal st.sessions sid, findVal st.users uid with
  | some s, some _ =>
    if s.host_id = uid ∧ s.status = SessionStatus.ACTIVE then .error .Unauthorized
    else .ok (removeParticipant st sid uid).2
  | _, _ => .error .NotFound

/-- Embedding of `start_session` route (`src/app.py` lines 578-607): host check,
minimum players, venue capacity for the whole roster; note the source has
no check of the session's current status. -/
def startSession (st : EngineState) (sid uid now : Nat) : Except Err EngineState :=
  match findVal st.sessions sid, findVal st.users uid with
  | some s, some _ =>
    if s.host_id ≠ uid then .error .Unauthorized
    else if canStart s = false then .error .InsufficientPlayers
    else if canAccommodate st s.slots_filled = false then .error .VenueAtCapacity
    else
      let s1 : SessionLobby := { s with status := SessionStatus.ACTIVE, started_at := some now }
      .ok { st with sessions := setVal st.sessions sid s1 }
  | _, _ => .error .NotFound

/-- The fixed per-participant completion reward (`reward = 10`). -/
def rewardAmount : Int := 10

/-- Per-user mutation in the completion loop: `sessions_completed += 1`,
`reliability_streak += 1`, `credit_balance += reward`. -/
def rewardUser (u : UserProfile) : UserProfile :=
  { u with
    sessions_completed := u.sessions_completed + 1
    reliability_streak := u.reliability_streak + 1
    credit_balance := u.credit_balance + rewardAmount }

/-- One iteration of the completion loop (`src/models.py` lines 230-246):
`if not participant.user: continue`, else mutate the user and append one
`SESSION_REWARD` ledger row. -/
def awardOne (st : EngineState) (uid : Nat) : EngineState :=
  match findVal st.users uid with
  | none => st
  | some u =>
    { st with
      users := setVal st.users uid (rewardUser u)
      ledger := st.ledger ++ [⟨uid, rewardAmount, "SESSION_REWARD"⟩] }

/-- The completion loop over the membership records, in table order. -/
def awardAll : EngineState → List Nat → EngineState
  | st, [] => st
  | st, uid :: rest => awardAll (awardOne st uid) rest

/-- Embedding of `complete_session` route + `SessionLobby.complete_session`
(`src/app.py` lines 610-632, `src/models.py` lines 221-248): host check,
then `ValueError` unless ACTIVE, then the status/timestamp update and the
reward loop. -/
def completeSession (st : EngineState) (sid uid now : Nat) : Except Err EngineState :=
  match findVal st.sessions sid, findVal st.users uid with
  | some s, some _ =>
    if s.host_id ≠ uid then .error .Unauthorized
    else if s.status ≠ SessionStatus.ACTIVE then .error .InvalidTransition
    else
      let s1 : SessionLobby := { s with status := SessionStatus.COMPLETED, completed_at := some now }
      let st1 : EngineState := { st with sessions := setVal st.sessions sid s1 }
      .ok (awardAll st1 (roster st sid))
  | _, _ => .error .NotFound

/-- Embedding of `cancel_session` route (`src/app.py` lines 635-654): host check only;
note the source has no check of the session's current status and applies
no penalty and no roster change. -/
def cancelSession (st : EngineState) (sid uid : Nat) : Except Err EngineState :=
  match findVal st.sessions sid, findVal st.users uid with
  | some s, some _ =>
    if s.host_id ≠ uid then .error .Unauthorized
    else
      let s1 : SessionLobby := { s with status := SessionStatus.CANCELLED }
      .ok { st with sessions := setVal st.sessions sid s1 }
  | _, _ => .error .NotFound

/-- The engine's public operation alphabet (spec §2 control flow). -/
inductive Op where
  | create (host_id game_id slots_total : Nat)
  | join (sid uid : Nat)
  | leave (sid uid : Nat)
  | start (sid uid now : Nat)
  | complete (sid uid now : Nat)
  | cancel (sid uid : Nat)
deriving DecidableEq, Repr

/-- Dispatch of one public operation. -/
def applyOp (st : EngineState) : Op → Except Err EngineState
  | .create h g n => createSession st h g n
  | .join sid uid => joinSession st sid uid
  | .leave sid uid => leaveSession st sid uid
  | .start sid uid now => startSession st sid uid now
  | .complete sid uid now => completeSession st sid uid now
  | .cancel sid uid => cancelSession st sid uid

/-- A user's ledger rows, in table order. -/
def ledgerOf (st : EngineState) (uid : Nat) : List CreditTransaction :=
  st.ledger.filter (fun t => t.user_id = uid)

/-- Sum of the amounts of a list of ledger rows belonging to `uid`. -/
def sumFor (l : List CreditTransaction) (uid : Nat) : Int :=
  ((l.filter (fun t => t.user_id = uid)).map (fun t => t.amount)).sum

/-- Sum of a user's ledger entry amounts. -/
def ledgerSum (st : EngineState) (uid : Nat) : Int :=
  sumFor st.ledger uid

/-- Extract the committed state of a successful operation, with a default
for the error case (used only to phrase concrete evaluations). -/
def okOr (r : Except Err EngineState) (d : EngineState) : EngineState :=
  match r with
  | .ok s => s
  | .error _ => d

/-- The reconciliation invariant of spec §8: every user row's balance
equals the sum of that user's ledger amounts. -/
def Reconciled (st : EngineState) : Prop :=
  ∀ p ∈ st.users, p.2.credit_balance = ledgerSum st p.1

instance (st : EngineState) : Decidable (Reconciled st) := by
  unfold Reconciled; infer_instance

/-! ### Concrete fixture states (used to evaluate the engine at specific inputs) -/

/-- A user with all counters at their defaults. -/
def freshUser : UserProfile := ⟨0, 0, 0, 0⟩

/-- A user sitting exactly at the `-50` eligibility boundary. -/
def brokeUser : UserProfile := ⟨-50, 0, 0, 0⟩

/-- Venue of capacity 20, one game (#7), session #1 RECRUITING with only its
host (user #1) on the roster. -/
def recruitingState : EngineState :=
  { max_capacity := 20
    games := [7]
    users := [(1, freshUser), (2, freshUser), (3, brokeUser)]
    sessions := [(1, ⟨7, SessionStatus.RECRUITING, 4, 1, 1, none, none⟩)]
    participants := [⟨1, 1⟩]
    ledger := []
    next_session_id := 2 }

/-- Session #1 RECRUITING with host #1 and member #2 (`slots_filled = 2`). -/
def twoMemberState : EngineState :=
  { max_capacity := 20
    games := [7]
    users := [(1, freshUser), (2, freshUser), (3, brokeUser)]
    sessions := [(1, ⟨7, SessionStatus.RECRUITING, 4, 2, 1, none, none⟩)]
    participants := [⟨1, 1⟩, ⟨1, 2⟩]
    ledger := []
    next_session_id := 2 }

/-- Session #1 ACTIVE with host #1 and member #2. -/
def activeState : EngineState :=
  { max_capacity := 20
    games := [7]
    users := [(1, freshUser), (2, freshUser), (3, brokeUser)]
    sessions := [(1, ⟨7, SessionStatus.ACTIVE, 4, 2, 1, some 100, none⟩)]
    participants := [⟨1, 1⟩, ⟨1, 2⟩]
    ledger := []
    next_session_id := 2 }

/-- Session #1 CANCELLED while still holding host #1 and member #2 on its
roster (exactly what the host's cancel leaves behind). -/
def cancelledState : EngineState :=
  { max_capacity := 20
    games := [7]
    users := [(1, freshUser), (2, freshUser), (3, brokeUser)]
    sessions := [(1, ⟨7, SessionStatus.CANCELLED, 4, 2, 1, none, none⟩)]
    participants := [⟨1, 1⟩, ⟨1, 2⟩]
    ledger := []
    next_session_id := 2 }

/-- Venue of capacity 4 with one ACTIVE session occupying 3 seats; user #1 is
free to act as a new host. -/
def nearCapacityState : EngineState :=
  { max_capacity := 4
    games := [7]
    users := [(1, freshUser), (2, freshUser), (3, freshUser), (4, freshUser)]
    sessions := [(1, ⟨7, SessionStatus.ACTIVE, 4, 3, 2, some 0, none⟩)]
    participants := [⟨1, 2⟩, ⟨1, 3⟩, ⟨1, 4⟩]
    ledger := []
    next_session_id := 2 }

/-- Session #1 ACTIVE whose roster holds host #1 and a dangling membership
record for user id #9 that has no user row. -/
def danglingMemberState : EngineState :=
  { max_capacity := 20
    games := [7]
    users := [(1, freshUser), (2, freshUser)]
    sessions := [(1, ⟨7, SessionStatus.ACTIVE, 4, 2, 1, some 100, none⟩)]
    participants := [⟨1, 1⟩, ⟨1, 9⟩]
    ledger := []
    next_session_id := 2 }

/-! ### Association-list lemmas -/

theorem setVal_nil {α : Type} (k : Nat) (v : α) : setVal ([] : List (Nat × α)) k v = [] := rfl

theorem setVal_cons {α : Type} (p : Nat × α) (ps : List (Nat × α)) (k : Nat) (v : α) :
    setVal (p :: ps) k v = (if p.1 = k then (k, v) else p) :: setVal ps k v := rfl

theorem findVal_mem {α : Type} {l : List (Nat × α)} {k : Nat} {v : α}
    (h : findVal l k = some v) : (k, v) ∈ l := by
  induction l with
  | nil => simp [findVal] at h
  | cons p ps ih =>
    rw [findVal] at h
    by_cases hp : p.1 = k
    · rw [if_pos hp] at h
      injection h with h
      subst hp; subst h
      simp
    · rw [if_neg hp] at h
      exact List.mem_cons_of_mem _ (ih h)

theorem findVal_setVal_self {α : Type} {l : List (Nat × α)} {k : Nat} (v : α)
    (h : (findVal l k).isSome) : findVal (setVal l k v) k = some v := by
  induction l with
  | nil => simp [findVal] at h
  | cons p ps ih =>
    rw [setVal_cons]
    by_cases hp : p.1 = k
    · rw [if_pos hp]; simp [findVal]
    · rw [if_neg hp, findVal, if_neg hp]
      rw [findVal, if_neg hp] at h
      exact ih h

theorem findVal_setVal_ne {α : Type} {l : List (Nat × α)} {k k' : Nat} (v : α)
    (h : k' ≠ k) : findVal (setVal l k v) k' = findVal l k' := by
  induction l with
  | nil => rfl
  | cons p ps ih =>
    simp only [setVal] at ih ⊢
    by_cases hp : p.1 = k
    · subst hp
      simp [findVal, Ne.symm h, ih]
    · simp [findVal, hp, ih]

theorem findVal_setVal_isSome {α : Type} (l : List (Nat × α)) (k k' : Nat) (v : α) :
    (findVal (setVal l k v) k').isSome = (findVal l k').isSome := by
  induction l with
  | nil => rfl
  | cons p ps ih =>
    simp only [setVal] at ih ⊢
    by_cases hp : p.1 = k
    · subst hp
      by_cases hk : p.1 = k'
      · simp [findVal, hk]
      · simp [findVal, hk, ih]
    · by_cases hq : p.1 = k'
      · have hkk : ¬ k' = k := fun he => hp (hq.trans he)
        simp [findVal, hq, hkk]
      · simp [findVal, hp, hq, ih]

theorem findVal_append_of_none {α : Type} {l₁ : List (Nat × α)} (l₂ : List (Nat × α))
    {k : Nat} (h : findVal l₁ k = none) : findVal (l₁ ++ l₂) k = findVal l₂ k := by
  induction l₁ with
  | nil => rfl
  | cons p ps ih =>
    rw [findVal] at h
    by_cases hp : p.1 = k
    · rw [if_pos hp] at h; exact absurd h (by simp)
    · rw [if_neg hp] at h
      rw [List.cons_append, findVal, if_neg hp]
      exact ih h

/-! ### Ledger-sum lemmas -/

theorem sumFor_append (l₁ l₂ : List CreditTransaction) (uid : Nat) :
    sumFor (l₁ ++ l₂) uid = sumFor l₁ uid + sumFor l₂ uid := by
  simp [sumFor, List.filter_append]

theorem sumFor_single (t : CreditTransaction) (uid : Nat) :
    sumFor [t] uid = if t.user_id = uid then t.amount else 0 := by
  by_cases h : t.user_id = uid <;> simp [sumFor, List.filter_cons, h]

/-! ### Frame lemmas for the completion reward loop -/

theorem awardOne_sessions (st : EngineState) (uid : Nat) :
    (awardOne st uid).sessions = st.sessions := by
  unfold awardOne
  cases findVal st.users uid <;> rfl

theorem awardOne_participants (st : EngineState) (uid : Nat) :
    (awardOne st uid).participants = st.participants := by
  unfold awardOne
  cases findVal st.users uid <;> rfl

theorem awardOne_users_ne {uid m : Nat} (st : EngineState) (h : uid ≠ m) :
    findVal (awardOne st uid).users m = findVal st.users m := by
  unfold awardOne
  cases findVal st.users uid with
  | none => rfl
  | some u => exact findVal_setVal_ne _ (fun hq => h hq.symm)

theorem awardOne_ledgerOf_ne {uid m : Nat} (st : EngineState) (h : uid ≠ m) :
    ledgerOf (awardOne st uid) m = ledgerOf st m := by
  unfold awardOne
  cases findVal st.users uid with
  | none => rfl
  | some u => simp [ledgerOf, List.filter_append, List.filter_cons, h]

theorem awardOne_users_self {m : Nat} {st : EngineState} {u : UserProfile}
    (hm : findVal st.users m = some u) :
    findVal (awardOne st m).users m = some (rewardUser u) := by
  unfold awardOne
  rw [hm]
  exact findVal_setVal_self _ (by simp [hm])

theorem awardOne_ledgerOf_self {m : Nat} {st : EngineState} {u : UserProfile}
    (hm : findVal st.users m = some u) :
    ledgerOf (awardOne st m) m = ledgerOf st m ++ [⟨m, rewardAmount, "SESSION_REWARD"⟩] := by
  unfold awardOne
  rw [hm]
  simp [ledgerOf, List.filter_append, List.filter_cons]

theorem awardOne_of_none {m : Nat} {st : EngineState}
    (hm : findVal st.users m = none) : awardOne st m = st := by
  unfold awardOne
  rw [hm]

theorem awardOne_users_isSome (st : EngineState) (uid k : Nat) :
    (findVal (awardOne st uid).users k).isSome = (findVal st.users k).isSome := by
  unfold awardOne
  cases findVal st.users uid with
  | none => rfl
  | some u => exact findVal_setVal_isSome _ _ _ _

theorem awardAll_sessions (l : List Nat) (st : EngineState) :
    (awardAll st l).sessions = st.sessions := by
  induction l generalizing st with
  | nil => rfl
  | cons uid rest ih => rw [awardAll, ih, awardOne_sessions]

theorem awardAll_participants (l : List Nat) (st : EngineState) :
    (awardAll st l).participants = st.participants := by
  induction l generalizing st with
  | nil => rfl
  | cons uid rest ih => rw [awardAll, ih, awardOne_participants]

theorem awardAll_users_isSome (l : List Nat) (st : EngineState) (k : Nat) :
    (findVal (awardAll st l).users k).isSome = (findVal st.users k).isSome := by
  induction l generalizing st with
  | nil => rfl
  | cons uid rest ih => rw [awardAll, ih, awardOne_users_isSome]

theorem awardAll_users_notmem {l : List Nat} {m : Nat} (st : EngineState) (h : m ∉ l) :
    findVal (awardAll st l).users m = findVal st.users m := by
  induction l generalizing st with
  | nil => rfl
  | cons uid rest ih =>
    have h1 : uid ≠ m := fun he => h (by rw [he]; exact List.mem_cons_self m rest)
    have h2 : m ∉ rest := fun hm => h (List.mem_cons_of_mem _ hm)
    rw [awardAll, ih _ h2, awardOne_users_ne st h1]

theorem awardAll_ledgerOf_notmem {l : List Nat} {m : Nat} (st : EngineState) (h : m ∉ l) :
    ledgerOf (awardAll st l) m = ledgerOf st m := by
  induction l generalizing st with
  | nil => rfl
  | cons uid rest ih =>
    have h1 : uid ≠ m := fun he => h (by rw [he]; exact List.mem_cons_self m rest)
    have h2 : m ∉ rest := fun hm => h (List.mem_cons_of_mem _ hm)
    rw [awardAll, ih _ h2, awardOne_ledgerOf_ne st h1]

theorem awardAll_users_mem {l : List Nat} {m : Nat} {u : UserProfile} (st : EngineState)
    (hnd : l.Nodup) (hm : m ∈ l) (hu : findVal st.users m = some u) :
    findVal (awardAll st l).users m = some (rewardUser u) := by
  induction l generalizing st with
  | nil => cases hm
  | cons uid rest ih =>
    rcases List.mem_cons.mp hm with he | hmr
    · subst he
      have hrest : m ∉ rest := (List.nodup_cons.mp hnd).1
      rw [awardAll, awardAll_users_notmem _ hrest, awardOne_users_self hu]
    · have h1 : uid ≠ m := fun he => ((List.nodup_cons.mp hnd).1 (he ▸ hmr))
      rw [awardAll]
      exact ih (awardOne st uid) (List.nodup_cons.mp hnd).2 hmr
        ((awardOne_users_ne st h1).trans hu)

theorem awardAll_ledgerOf_mem {l : List Nat} {m : Nat} {u : UserProfile} (st : EngineState)
    (hnd : l.Nodup) (hm : m ∈ l) (hu : findVal st.users m = some u) :
    ledgerOf (awardAll st l) m = ledgerOf st m ++ [⟨m, rewardAmount, "SESSION_REWARD"⟩] := by
  induction l generalizing st with
  | nil => cases hm
  | cons uid rest ih =>
    rcases List.mem_cons.mp hm with he | hmr
    · subst he
      have hrest : m ∉ rest := (List.nodup_cons.mp hnd).1
      rw [awardAll, awardAll_ledgerOf_notmem _ hrest, awardOne_ledgerOf_self hu]
    · have h1 : uid ≠ m := fun he => ((List.nodup_cons.mp hnd).1 (he ▸ hmr))
      rw [awardAll]
      rw [ih (awardOne st uid) (List.nodup_cons.mp hnd).2 hmr
        ((awardOne_users_ne st h1).trans hu), awardOne_ledgerOf_ne st h1]

theorem awardAll_users_none {l : List Nat} {m : Nat} (st : EngineState)
    (hm : findVal st.users m = none) :
    findVal (awardAll st l).users m = none := by
  induction l generalizing st with
  | nil => exact hm
  | cons uid rest ih =>
    rw [awardAll]
    by_cases he : uid = m
    · subst he
      rw [awardOne_of_none hm] at *
      exact ih st hm
    · exact ih _ ((awardOne_users_ne st he).trans hm)

theorem awardAll_ledgerOf_of_users_none {l : List Nat} {m : Nat} (st : EngineState)
    (hm : findVal st.users m = none) :
    ledgerOf (awardAll st l) m = ledgerOf st m := by
  induction l generalizing st with
  | nil => rfl
  | cons uid rest ih =>
    rw [awardAll]
    by_cases he : uid = m
    · subst he
      rw [awardOne_of_none hm]
      exact ih st hm
    · rw [ih _ ((awardOne_users_ne st he).trans hm), awardOne_ledgerOf_ne st he]

/-! ### Reconciliation lemmas -/

theorem reconciled_of_fields {st st' : EngineState}
    (hu : st'.users = st.users) (hl : st'.ledger = st.ledger)
    (h : Reconciled st) : Reconciled st' := by
  intro p hp
  rw [hu] at hp
  have hb := h p hp
  unfold ledgerSum at hb ⊢
  rw [hl]
  exact hb

theorem awardOne_reconciled {st : EngineState} (uid : Nat) (h : Reconciled st) :
    Reconciled (awardOne st uid) := by
  unfold awardOne
  cases hu : findVal st.users uid with
  | none => exact h
  | some u =>
    intro p hp
    simp only [setVal, List.mem_map] at hp
    obtain ⟨q, hq, hpq⟩ := hp
    by_cases hk : q.1 = uid
    · rw [if_pos hk] at hpq
      subst hpq
      have hbal : u.credit_balance = ledgerSum st uid := h _ (findVal_mem hu)
      simp only [ledgerSum] at hbal ⊢
      simp [sumFor_append, sumFor_single, rewardUser, hbal]
    · rw [if_neg hk] at hpq
      subst hpq
      have hb := h q hq
      have hk2 : ¬ uid = q.1 := fun he => hk he.symm
      simp only [ledgerSum] at hb ⊢
      simp [sumFor_append, sumFor_single, hk2]
      exact hb

theorem awardAll_reconciled (l : List Nat) {st : EngineState} (h : Reconciled st) :
    Reconciled (awardAll st l) := by
  induction l generalizing st with
  | nil => exact h
  | cons uid rest ih => exact ih (awardOne_reconciled uid h)

/-! ### Inversion lemmas: the shape of each operation's successful result -/

theorem completeSession_ok_inv {st st' : EngineState} {sid uid now : Nat}
    (hok : completeSession st sid uid now = .ok st') :
    ∃ s u, findVal st.sessions sid = some s ∧ findVal st.users uid = some u ∧
      s.host_id = uid ∧ s.status = SessionStatus.ACTIVE ∧
      st' = awardAll { st with sessions := setVal st.sessions sid { s with status := SessionStatus.COMPLETED, completed_at := some now } } (roster st sid) := by
  unfold completeSession at hok
  split at hok
  case h_1 s u heq1 heq2 =>
    split at hok
    next hh => exact absurd hok (by simp)
    next hh =>
      split at hok
      next hs2 => exact absurd hok (by simp)
      next hs2 =>
        injection hok with hok
        subst hok
        exact ⟨s, u, heq1, heq2, not_not.mp hh, not_not.mp hs2, rfl⟩
  case h_2 => exact absurd hok (by simp)

theorem createSession_ok_frame {st st' : EngineState} {h g n : Nat}
    (hok : createSession st h g n = .ok st') :
    st'.users = st.users ∧ st'.ledger = st.ledger := by
  unfold createSession at hok
  split at hok
  case h_1 => exact absurd hok (by simp)
  case h_2 =>
    split at hok
    next =>
      split at hok
      next => exact absurd hok (by simp)
      next =>
        split at hok
        next => exact absurd hok (by simp)
        next =>
          injection hok with hok
          subst hok
          exact ⟨rfl, rfl⟩
    next => exact absurd hok (by simp)

theorem addParticipant_ok_frame {st st' : EngineState} {sid uid : Nat}
    (hok : addParticipant st sid uid = .ok st') :
    st'.users = st.users ∧ st'.ledger = st.ledger := by
  unfold addParticipant at hok
  split at hok
  case h_1 s u heq1 heq2 =>
    split at hok
    next => exact absurd hok (by simp)
    next =>
      split at hok
      next => exact absurd hok (by simp)
      next =>
        split at hok
        next => exact absurd hok (by simp)
        next =>
          split at hok
          next => exact absurd hok (by simp)
          next =>
            injection hok with hok
            subst hok
            exact ⟨rfl, rfl⟩
  case h_2 => exact absurd hok (by simp)

theorem joinSession_ok_frame {st st' : EngineState} {sid uid : Nat}
    (hok : joinSession st sid uid = .ok st') :
    st'.users = st.users ∧ st'.ledger = st.ledger := by
  unfold joinSession at hok
  split at hok
  case h_1 s u heq1 heq2 =>
    split at hok
    next => exact absurd hok (by simp)
    next =>
      split at hok
      next => exact absurd hok (by simp)
      next =>
        split at hok
        next => exact absurd hok (by simp)
        next => exact addParticipant_ok_frame hok
  case h_2 => exact absurd hok (by simp)

theorem removeParticipant_frame (st : EngineState) (sid uid : Nat) :
    (removeParticipant st sid uid).2.users = st.users ∧
      (removeParticipant st sid uid).2.ledger = st.ledger ∧
      (removeParticipant st sid uid).2.max_capacity = st.max_capacity := by
  unfold removeParticipant
  cases findVal st.sessions sid with
  | none => exact ⟨rfl, rfl, rfl⟩
  | some s =>
    by_cases hm : uid ∈ roster st sid
    · simp [hm]
    · simp [hm]

theorem leaveSession_ok_inv {st st' : EngineState} {sid uid : Nat}
    (hok : leaveSession st sid uid = .ok st') :
    st' = (removeParticipant st sid uid).2 := by
  unfold leaveSession at hok
  split at hok
  case h_1 s u heq1 heq2 =>
    split at hok
    next => exact absurd hok (by simp)
    next =>
      injection hok with hok
      exact hok.symm
  case h_2 => exact absurd hok (by simp)

theorem startSession_ok_inv {st st' : EngineState} {sid uid now : Nat}
    (hok : startSession st sid uid now = .ok st') :
    ∃ s u, findVal st.sessions sid = some s ∧ findVal st.users uid = some u ∧
      s.host_id = uid ∧ canStart s = true ∧ canAccommodate st s.slots_filled = true ∧
      st' = { st with sessions := setVal st.sessions sid { s with status := SessionStatus.ACTIVE, started_at := some now } } := by
  unfold startSession at hok
  split at hok
  case h_1 s u heq1 heq2 =>
    split at hok
    next => exact absurd hok (by simp)
    next hh =>
      split at hok
      next => exact absurd hok (by simp)
      next hcs =>
        split at hok
        next => exact absurd hok (by simp)
        next hca =>
          injection hok with hok
          subst hok
          refine ⟨s, u, heq1, heq2, not_not.mp hh, ?_, ?_, rfl⟩
          · revert hcs; cases canStart s <;> simp
          · revert hca; cases canAccommodate st s.slots_filled <;> simp
  case h_2 => exact absurd hok (by simp)

theorem cancelSession_ok_inv {st st' : EngineState} {sid uid : Nat}
    (hok : cancelSession st sid uid = .ok st') :
    ∃ s u, findVal st.sessions sid = some s ∧ findVal st.users uid = some u ∧
      s.host_id = uid ∧
      st' = { st with sessions := setVal st.sessions sid { s with status := SessionStatus.CANCELLED } } := by
  unfold cancelSession at hok
  split at hok
  case h_1 s u heq1 heq2 =>
    split at hok
    next => exact absurd hok (by simp)
    next hh =>
      injection hok with hok
      subst hok
      exact ⟨s, u, heq1, heq2, not_not.mp hh, rfl⟩
  case h_2 => exact absurd hok (by simp)

/-! ### Claim theorems -/

/-- Claim C1 (evaluation of the code bug): session #1 of `cancelledState` is
CANCELLED, yet its host's `start` succeeds and sets the status to ACTIVE,
because `start_session` in `src/app.py` never inspects the session's current
status.  The claim says every engine operation on a terminal session fails
with `InvalidTransition` and leaves the status unchanged. -/
theorem startSession_on_cancelled_succeeds :
    (startSession cancelledState 1 1 100).map
      (fun st => (findVal st.sessions 1).map (fun s => s.status))
      = .ok (some SessionStatus.ACTIVE) := rfl

/-- Claim C2 (evaluation of the code bug): the host (sole member) of the
RECRUITING session #1 of `recruitingState` leaves it through the public leave
operation; the membership record is deleted but `slots_filled` is floored at
1, so afterwards `slots_filled = 1` while the roster is empty, breaking
`slotsFilled == |roster|`. -/
theorem host_leave_breaks_roster_invariant :
    (leaveSession recruitingState 1 1).map
      (fun st => ((findVal st.sessions 1).map (fun s => s.slots_filled), (roster st 1).length))
      = .ok (some 1, 0) := rfl

/-- Claim C3 (counterexample): in `nearCapacityState` the venue has capacity 4
and an ACTIVE session occupies 3 seats.  User #1 creates a session for valid
game #7 with `slots_total = 2` (inside [2,10]), so the claim says creation
succeeds; the code instead fails with the venue-capacity error, because
`create_session` in `src/app.py` also checks `venue.can_accommodate(slots_total)`. -/
theorem createSession_fails_at_capacity :
    createSession nearCapacityState 1 7 2 = .error .VenueAtCapacity := rfl

/-- Claim C8: every engine operation preserves, for every user row, the
reconciliation invariant that the user's `credit_balance` equals the sum of
the amounts of that user's ledger entries; the only operation that touches
balances is `complete`, and it appends one matching `SESSION_REWARD` entry
per balance change. -/
theorem applyOp_preserves_reconciliation (st st' : EngineState) (op : Op)
    (hrec : Reconciled st) (hok : applyOp st op = .ok st') : Reconciled st' := by
  cases op with
  | create h g n =>
    unfold applyOp at hok
    obtain ⟨hu, hl⟩ := createSession_ok_frame hok
    exact reconciled_of_fields hu hl hrec
  | join sid uid =>
    unfold applyOp at hok
    obtain ⟨hu, hl⟩ := joinSession_ok_frame hok
    exact reconciled_of_fields hu hl hrec
  | leave sid uid =>
    unfold applyOp at hok
    have h2 := leaveSession_ok_inv hok
    subst h2
    exact reconciled_of_fields (removeParticipant_frame st sid uid).1
      (removeParticipant_frame st sid uid).2.1 hrec
  | start sid uid now =>
    unfold applyOp at hok
    obtain ⟨s, u, hs, hu, hh, hcs, hca, rfl⟩ := startSession_ok_inv hok
    exact reconciled_of_fields rfl rfl hrec
  | complete sid uid now =>
    unfold applyOp at hok
    obtain ⟨s, u, hs, hu, hh, ha, rfl⟩ := completeSession_ok_inv hok
    exact awardAll_reconciled _ (reconciled_of_fields rfl rfl hrec)
  | cancel sid uid =>
    unfold applyOp at hok
    obtain ⟨s, u, hs, hu, hh, rfl⟩ := cancelSession_ok_inv hok
    exact reconciled_of_fields rfl rfl hrec

/-- Claim C3 (amended): `create_session` additionally checks venue capacity.
With a resolvable host and a fresh session id: if the game exists, the slot
count lies in [2,10] and the venue can seat that many additional players,
creation succeeds — regardless of the host's credit balance, which no branch
reads — producing a RECRUITING session whose roster is exactly the host and
whose `slots_filled` is 1; and creation fails with InvalidParameters exactly
when the slot count is outside [2,10] or the game is missing. -/
theorem createSession_spec (st : EngineState) (h g n : Nat)
    (hu : (findVal st.users h).isSome = true)
    (hfresh : findVal st.sessions st.next_session_id = none)
    (hfreshp : ∀ p ∈ st.participants, p.session_id ≠ st.next_session_id) :
    ((g ∈ st.games ∧ 2 ≤ n ∧ n ≤ 10 ∧ occupancy st + n ≤ st.max_capacity) →
      (createSession st h g n).map
        (fun st2 => ((findVal st2.sessions st.next_session_id).map
          (fun s => (s.status, s.slots_filled, s.slots_total, s.host_id)),
          roster st2 st.next_session_id))
        = .ok (some (SessionStatus.RECRUITING, 1, n, h), [h])) ∧
    (createSession st h g n = .error .InvalidParameters ↔
      (g ∉ st.games ∨ n < 2 ∨ 10 < n)) := by
  obtain ⟨u, hu2⟩ := Option.isSome_iff_exists.mp hu
  constructor
  · rintro ⟨hg, hn2, hn10, hcap⟩
    have hr : ¬ (n < 2 ∨ 10 < n) := by omega
    have hca : canAccommodate st n = true := by
      simp only [canAccommodate, decide_eq_true_eq]
      exact hcap
    have hcaf : ¬ canAccommodate st n = false := by simp [hca]
    simp only [createSession, hu2, if_pos hg, if_neg hr, if_neg hcaf, Except.map,
      Except.ok.injEq, Prod.mk.injEq]
    constructor
    · rw [findVal_append_of_none _ hfresh]
      simp [findVal]
    · have hold : st.participants.filter
          (fun p => decide (p.session_id = st.next_session_id)) = [] :=
        List.filter_eq_nil_iff.mpr (fun p hp => by simp [hfreshp p hp])
      simp only [roster, List.filter_append, hold]
      simp
  · by_cases hg : g ∈ st.games
    · by_cases hr : n < 2 ∨ 10 < n
      · simp only [createSession, hu2, if_pos hg, if_pos hr]
        simp [hg, hr]
      · by_cases hc : canAccommodate st n = false
        · simp only [createSession, hu2, if_pos hg, if_neg hr, if_pos hc]
          simp only [Except.error.injEq]
          constructor
          · intro he
            cases he
          · intro he
            rcases he with he | he
            · exact absurd hg he
            · exact absurd he hr
        · simp only [createSession, hu2, if_pos hg, if_neg hr, if_neg hc]
          constructor
          · intro he
            cases he
          · intro he
            rcases he with he | he
            · exact absurd hg he
            · exact absurd he hr
    · simp only [createSession, hu2, if_neg hg]
      simp [hg]

/-- Witness for C3 (amended): user #2 creates a 3-slot session for game #7 in
`recruitingState` (capacity 20, nothing ACTIVE), and creation by a missing
game or out-of-range slot count is InvalidParameters. -/
theorem createSession_spec_witness :
    ((7 ∈ recruitingState.games ∧ 2 ≤ 3 ∧ 3 ≤ 10 ∧
        occupancy recruitingState + 3 ≤ recruitingState.max_capacity) →
      (createSession recruitingState 2 7 3).map
        (fun st2 => ((findVal st2.sessions recruitingState.next_session_id).map
          (fun s => (s.status, s.slots_filled, s.slots_total, s.host_id)),
          roster st2 recruitingState.next_session_id))
        = .ok (some (SessionStatus.RECRUITING, 1, 3, 2), [2])) ∧
    (createSession recruitingState 2 7 3 = .error .InvalidParameters ↔
      (7 ∉ recruitingState.games ∨ 3 < 2 ∨ 10 < 3)) :=
  createSession_spec recruitingState 2 7 3 rfl rfl (by decide)

/-- Claim C4: complete invoked by the host fails with InvalidTransition when
the session's status is not ACTIVE; on an ACTIVE session it succeeds, sets
the status to COMPLETED, sets `completed_at`, and for every roster member
with a user row it increments `sessions_completed` and `reliability_streak`
by 1, adds exactly 10 to the credit balance, and appends exactly one
SESSION_REWARD ledger entry of amount 10 for that user. -/
theorem completeSession_spec (st : EngineState) (sid uid now : Nat)
    (s : SessionLobby) (m : Nat) (mu : UserProfile)
    (hs : findVal st.sessions sid = some s)
    (hhost : s.host_id = uid)
    (hu : (findVal st.users uid).isSome = true)
    (hnd : (roster st sid).Nodup)
    (hm : m ∈ roster st sid)
    (hmu : findVal st.users m = some mu) :
    (s.status ≠ SessionStatus.ACTIVE →
      completeSession st sid uid now = .error .InvalidTransition) ∧
    (s.status = SessionStatus.ACTIVE →
      ∃ st', completeSession st sid uid now = .ok st' ∧
        findVal st'.sessions sid = some { s with status := SessionStatus.COMPLETED, completed_at := some now } ∧
        findVal st'.users m = some { mu with sessions_completed := mu.sessions_completed + 1, reliability_streak := mu.reliability_streak + 1, credit_balance := mu.credit_balance + 10 } ∧
        ledgerOf st' m = ledgerOf st m ++ [⟨m, 10, "SESSION_REWARD"⟩]) := by
  obtain ⟨u, hu2⟩ := Option.isSome_iff_exists.mp hu
  constructor
  · intro hne
    simp [completeSession, hs, hu2, hhost, hne]
  · intro ha
    refine ⟨awardAll { st with sessions := setVal st.sessions sid { s with status := SessionStatus.COMPLETED, completed_at := some now } } (roster st sid), ?_, ?_, ?_, ?_⟩
    · simp [completeSession, hs, hu2, hhost, ha]
    · rw [awardAll_sessions]
      exact findVal_setVal_self _ (by simp [hs])
    · exact awardAll_users_mem _ hnd hm hmu
    · exact awardAll_ledgerOf_mem _ hnd hm hmu

/-- Witness for C4: completing the ACTIVE session of `activeState` rewards
member #2. -/
theorem completeSession_spec_witness :
    ∃ st', completeSession activeState 1 1 200 = .ok st' ∧
      findVal st'.sessions 1 = some ⟨7, SessionStatus.COMPLETED, 4, 2, 1, some 100, some 200⟩ ∧
      findVal st'.users 2 = some ⟨10, 1, 1, 0⟩ ∧
      ledgerOf st' 2 = ledgerOf activeState 2 ++ [⟨2, 10, "SESSION_REWARD"⟩] :=
  (completeSession_spec activeState 1 1 200 ⟨7, SessionStatus.ACTIVE, 4, 2, 1, some 100, none⟩
    2 freshUser rfl rfl rfl (by decide) (by decide) rfl).2 rfl

/-- Claim C5: once complete has succeeded on a session, a second complete
fails with InvalidTransition; the operation returns an error, so no state is
committed and no participant is awarded a second time. -/
theorem completeSession_second_fails (st st' : EngineState) (sid uid now now2 : Nat)
    (hok : completeSession st sid uid now = .ok st') :
    completeSession st' sid uid now2 = .error .InvalidTransition := by
  obtain ⟨s, u, hs, hu, hh, ha, rfl⟩ := completeSession_ok_inv hok
  subst hh
  have hsess : findVal (awardAll { st with sessions := setVal st.sessions sid { s with status := SessionStatus.COMPLETED, completed_at := some now } } (roster st sid)).sessions sid
      = some { s with status := SessionStatus.COMPLETED, completed_at := some now } := by
    rw [awardAll_sessions]
    exact findVal_setVal_self _ (by simp [hs])
  have husr : (findVal (awardAll { st with sessions := setVal st.sessions sid { s with status := SessionStatus.COMPLETED, completed_at := some now } } (roster st sid)).users s.host_id).isSome = true := by
    rw [awardAll_users_isSome]
    simp [hu]
  obtain ⟨u2, hu2⟩ := Option.isSome_iff_exists.mp husr
  simp [completeSession, hsess, hu2]

/-- Witness for C5: completing session #1 of `activeState` twice; the second
call fails with InvalidTransition. -/
theorem completeSession_second_fails_witness :
    completeSession (okOr (completeSession activeState 1 1 200) activeState) 1 1 300
      = .error .InvalidTransition :=
  completeSession_second_fails activeState
    (okOr (completeSession activeState 1 1 200) activeState) 1 1 200 300 (by rfl)

/-- Claim C6: start by a non-host fails Unauthorized (the error result
commits nothing, so the session is unchanged); by the host it fails
InsufficientPlayers when `slots_filled < 2`, fails VenueAtCapacity when the
occupancy of all ACTIVE sessions plus this session's `slots_filled` exceeds
`max_capacity`, and otherwise succeeds, setting the status to ACTIVE and
`started_at` to the current time. -/
theorem startSession_spec (st : EngineState) (sid uid now : Nat) (s : SessionLobby)
    (hs : findVal st.sessions sid = some s)
    (hu : (findVal st.users uid).isSome = true) :
    (s.host_id ≠ uid → startSession st sid uid now = .error .Unauthorized) ∧
    (s.host_id = uid → s.slots_filled < 2 →
      startSession st sid uid now = .error .InsufficientPlayers) ∧
    (s.host_id = uid → 2 ≤ s.slots_filled →
      st.max_capacity < occupancy st + s.slots_filled →
      startSession st sid uid now = .error .VenueAtCapacity) ∧
    (s.host_id = uid → 2 ≤ s.slots_filled →
      occupancy st + s.slots_filled ≤ st.max_capacity →
      startSession st sid uid now = .ok { st with sessions := setVal st.sessions sid { s with status := SessionStatus.ACTIVE, started_at := some now } }) := by
  obtain ⟨u, hu2⟩ := Option.isSome_iff_exists.mp hu
  refine ⟨?_, ?_, ?_, ?_⟩
  · intro hne
    simp [startSession, hs, hu2, hne]
  · intro hh hlt
    have hcs : canStart s = false := by
      simp only [canStart, decide_eq_false_iff_not]
      omega
    simp [startSession, hs, hu2, hh, hcs]
  · intro hh hge hcap
    have hcs : canStart s ≠ false := by
      simp only [canStart, ne_eq, decide_eq_false_iff_not, not_not]
      omega
    have hca : canAccommodate st s.slots_filled = false := by
      simp only [canAccommodate, decide_eq_false_iff_not]
      omega
    simp [startSession, hs, hu2, hh, hcs, hca]
  · intro hh hge hcap
    have hcs : canStart s ≠ false := by
      simp only [canStart, ne_eq, decide_eq_false_iff_not, not_not]
      omega
    have hca : canAccommodate st s.slots_filled ≠ false := by
      simp only [canAccommodate, ne_eq, decide_eq_false_iff_not, not_not]
      omega
    simp [startSession, hs, hu2, hh, hcs, hca]

/-- Witness for C6: the host starts the two-member RECRUITING session of
`twoMemberState`. -/
theorem startSession_spec_witness :
    startSession twoMemberState 1 1 100
      = .ok { twoMemberState with sessions := setVal twoMemberState.sessions 1 ⟨7, SessionStatus.ACTIVE, 4, 2, 1, some 100, none⟩ } :=
  (startSession_spec twoMemberState 1 1 100 ⟨7, SessionStatus.RECRUITING, 4, 2, 1, none, none⟩
    rfl rfl).2.2.2 rfl (by decide) (by decide)

/-- Claim C7: the eligibility gate holds exactly when the balance is
strictly above -50 (a balance of exactly -50 is ineligible), and a join
(`add_participant`) by a non-member on a non-full session fails with
Ineligible exactly when the gate rejects the user. -/
theorem eligibility_gate_spec (st : EngineState) (sid uid : Nat)
    (s : SessionLobby) (u : UserProfile)
    (hs : findVal st.sessions sid = some s)
    (hu : findVal st.users uid = some u)
    (hnotfull : s.slots_filled < s.slots_total)
    (hnm : uid ∉ roster st sid) :
    (canJoinSession u = true ↔ u.credit_balance > -50) ∧
    (addParticipant st sid uid = .error .Ineligible ↔ ¬ u.credit_balance > -50) := by
  have hful : isFull s = false := by
    simp only [isFull, decide_eq_false_iff_not]
    omega
  constructor
  · simp [canJoinSession]
  · by_cases he : u.credit_balance > -50
    · have hcj : canJoinSession u = true := by
        simp only [canJoinSession, decide_eq_true_eq]
        exact he
      by_cases hv : s.status = SessionStatus.ACTIVE ∧ canAccommodate st 1 = false
      · simp [addParticipant, hs, hu, hful, hnm, hcj, hv, he]
      · simp [addParticipant, hs, hu, hful, hnm, hcj, hv, he]
    · have hcj : canJoinSession u = false := by
        simp only [canJoinSession, decide_eq_false_iff_not]
        exact he
      simp [addParticipant, hs, hu, hful, hnm, hcj, he]

/-- Witness for C7: user #3 of `recruitingState` sits exactly at -50 and is
rejected as Ineligible when joining session #1. -/
theorem eligibility_gate_spec_witness :
    (canJoinSession brokeUser = true ↔ brokeUser.credit_balance > -50) ∧
    (addParticipant recruitingState 1 3 = .error .Ineligible ↔
      ¬ brokeUser.credit_balance > -50) :=
  eligibility_gate_spec recruitingState 1 3 ⟨7, SessionStatus.RECRUITING, 4, 1, 1, none, none⟩
    brokeUser rfl rfl (by decide) (by decide)

/-- Claim C9: cancel by the host of a RECRUITING or ACTIVE session changes
only that session's status (to CANCELLED): the membership table, every user
row (balance, streak, counters) and the ledger are untouched, the cancelled
session keeps every other field (roster and `slots_filled` retained), and
other sessions are unchanged. -/
theorem cancelSession_frame (st : EngineState) (sid uid : Nat) (s : SessionLobby)
    (hs : findVal st.sessions sid = some s)
    (hu : (findVal st.users uid).isSome = true)
    (hhost : s.host_id = uid)
    (hstat : s.status = SessionStatus.RECRUITING ∨ s.status = SessionStatus.ACTIVE) :
    ∃ st', cancelSession st sid uid = .ok st' ∧
      st'.users = st.users ∧ st'.ledger = st.ledger ∧
      st'.participants = st.participants ∧
      findVal st'.sessions sid = some { s with status := SessionStatus.CANCELLED } ∧
      ∀ sid2, sid2 ≠ sid → findVal st'.sessions sid2 = findVal st.sessions sid2 := by
  obtain ⟨u, hu2⟩ := Option.isSome_iff_exists.mp hu
  subst hhost
  refine ⟨{ st with sessions := setVal st.sessions sid { s with status := SessionStatus.CANCELLED } }, ?_, rfl, rfl, rfl, ?_, ?_⟩
  · simp [cancelSession, hs, hu2]
  · exact findVal_setVal_self _ (by simp [hs])
  · intro sid2 hne
    exact findVal_setVal_ne _ hne

/-- Witness for C9: the host cancels the RECRUITING session of
`twoMemberState`; only the status changes. -/
theorem cancelSession_frame_witness :
    ∃ st', cancelSession twoMemberState 1 1 = .ok st' ∧
      st'.users = twoMemberState.users ∧ st'.ledger = twoMemberState.ledger ∧
      st'.participants = twoMemberState.participants ∧
      findVal st'.sessions 1 = some ⟨7, SessionStatus.CANCELLED, 4, 2, 1, none, none⟩ ∧
      ∀ sid2, sid2 ≠ 1 → findVal st'.sessions sid2 = findVal twoMemberState.sessions sid2 :=
  cancelSession_frame twoMemberState 1 1 ⟨7, SessionStatus.RECRUITING, 4, 2, 1, none, none⟩
    rfl rfl rfl (Or.inl rfl)

/-- Claim C10: completing an ACTIVE session whose roster holds a membership
record with no matching user row succeeds rather than failing with NotFound:
the session still becomes COMPLETED and every resolvable member is rewarded,
while the unresolved member keeps no user row, gains no ledger entry, and no
error is raised for it. -/
theorem completeSession_skips_unresolved (st : EngineState) (sid uid now : Nat)
    (s : SessionLobby) (m : Nat)
    (hs : findVal st.sessions sid = some s)
    (hhost : s.host_id = uid)
    (hu : (findVal st.users uid).isSome = true)
    (hact : s.status = SessionStatus.ACTIVE)
    (hnd : (roster st sid).Nodup)
    (hm : m ∈ roster st sid)
    (hmu : findVal st.users m = none) :
    ∃ st', completeSession st sid uid now = .ok st' ∧
      findVal st'.sessions sid = some { s with status := SessionStatus.COMPLETED, completed_at := some now } ∧
      findVal st'.users m = none ∧
      ledgerOf st' m = ledgerOf st m ∧
      ∀ m2 mu2, m2 ∈ roster st sid → findVal st.users m2 = some mu2 →
        findVal st'.users m2 = some (rewardUser mu2) ∧
        ledgerOf st' m2 = ledgerOf st m2 ++ [⟨m2, 10, "SESSION_REWARD"⟩] := by
  obtain ⟨u, hu2⟩ := Option.isSome_iff_exists.mp hu
  refine ⟨awardAll { st with sessions := setVal st.sessions sid { s with status := SessionStatus.COMPLETED, completed_at := some now } } (roster st sid), ?_, ?_, ?_, ?_, ?_⟩
  · simp [completeSession, hs, hu2, hhost, hact]
  · rw [awardAll_sessions]
    exact findVal_setVal_self _ (by simp [hs])
  · exact awardAll_users_none _ hmu
  · exact awardAll_ledgerOf_of_users_none _ hmu
  · intro m2 mu2 hm2 hmu2
    exact ⟨awardAll_users_mem _ hnd hm2 hmu2, awardAll_ledgerOf_mem _ hnd hm2 hmu2⟩

/-- Witness for C10: completing session #1 of `danglingMemberState`, whose
roster holds the resolvable host #1 and the dangling user id #9. -/
theorem completeSession_skips_unresolved_witness :
    ∃ st', completeSession danglingMemberState 1 1 200 = .ok st' ∧
      findVal st'.sessions 1 = some ⟨7, SessionStatus.COMPLETED, 4, 2, 1, some 100, some 200⟩ ∧
      findVal st'.users 9 = none ∧
      ledgerOf st' 9 = ledgerOf danglingMemberState 9 ∧
      ∀ m2 mu2, m2 ∈ roster danglingMemberState 1 →
        findVal danglingMemberState.users m2 = some mu2 →
        findVal st'.users m2 = some (rewardUser mu2) ∧
        ledgerOf st' m2 = ledgerOf danglingMemberState m2 ++ [⟨m2, 10, "SESSION_REWARD"⟩] :=
  completeSession_skips_unresolved danglingMemberState 1 1 200
    ⟨7, SessionStatus.ACTIVE, 4, 2, 1, some 100, none⟩ 9
    rfl rfl rfl rfl (by decide) (by decide) rfl

/-- Witness for C8: the reconciliation invariant holds in
`danglingMemberState` and is preserved by the host cancelling session #1. -/
theorem applyOp_preserves_reconciliation_witness :
    Reconciled (okOr (applyOp danglingMemberState (.cancel 1 1)) danglingMemberState) :=
  applyOp_preserves_reconciliation danglingMemberState
    (okOr (applyOp danglingMemberState (.cancel 1 1)) danglingMemberState)
    (.cancel 1 1) (by decide) (by rfl)

end TableTop
